import Mathlib

/-!
Shallow embedding of the batch video-processing orchestrator
(`batch_process.py`): the per-file job runner (skip check, submit, upload,
poll loop, download, rename, retry policy), the batch aggregator with its
ledger, and the semaphore-gated scheduler.

The remote service and the filesystem are modelled as an environment
(`AttemptEnv`) consumed by one attempt of `process_single_video`: the
submit response, the per-poll status responses, and the success of the
upload / download / rename side effects are all inputs.  Side effects the
runner performs are recorded in an event trace (`Event`).  Console
printing is not modelled (it has no effect on control flow or state).
-/

/-- Constant `MAX_CONCURRENT_TASKS = 5` (batch_process.py line 18). -/
def MAX_CONCURRENT_TASKS : Nat := 5

/-- Constant `RETRY_LIMIT = 1` (line 19): extra attempts after the first. -/
def RETRY_LIMIT : Nat := 1

/-- Constant `OUTPUT_FOLDER = "output"` (line 16). -/
def OUTPUT_FOLDER : String := "output"

/-- Local `max_wait = 3600` (line 200): polling ceiling in seconds. -/
def max_wait : Nat := 3600

/-- Local `wait_interval = 10` (line 201): fixed wait before each poll. -/
def wait_interval : Nat := 10

/-- The terminal status of a per-file outcome; every `return` of
`process_single_video` sets `result["status"]` to one of these three. -/
inductive JobStatus where
  | success
  | failed
  | skipped
deriving DecidableEq

/-- Response body of `submit_video_job` (lines 125-129): `requestId` may be
absent (`none`) and `uploadUrls` may be empty — the caller checks both. -/
structure SubmitResponse where
  requestId : Option String
  uploadUrls : List String
deriving DecidableEq

/-- Response body of `check_job_status`: `status`, advisory `progress`,
optional `download.url` and optional `error` message (lines 208-233). -/
structure PollResponse where
  status : String
  progress : Nat
  downloadUrl : Option String
  errorMsg : Option String
deriving DecidableEq

/-- Environment for one invocation of `process_single_video` (one attempt):
what the filesystem and the remote service answer during that attempt.
`submit`/`polls` use `Except`: `.error` models the HTTP call raising
(non-200 submit at line 127-128, non-200 status check at line 147-148). -/
structure AttemptEnv where
  /-- Result of the `is_already_processed` check at the start of the attempt
  (line 172): whether `output/<name>` exists at that moment. -/
  outputExists : Bool
  /-- Result of `submit_video_job` (line 181). -/
  submit : Except String SubmitResponse
  /-- Whether `upload_video` returns true (line 196). -/
  uploadOk : Bool
  /-- The `n`-th `check_job_status` response of this attempt (line 208). -/
  polls : Nat → Except String PollResponse
  /-- Whether `download_result` returns true (line 221). -/
  downloadOk : Bool
  /-- Whether `temp_file.rename(final_file)` succeeds (line 222). -/
  renameOk : Bool
  /-- The `uuid.uuid4()` drawn for this attempt's temp file (line 216). -/
  tempUuid : String
  /-- Reading of `datetime.now().isoformat()` at the start of this attempt (line 168). -/
  now : String

/-- Observable side effects of a runner, in program order.  `sleep` records
`asyncio.sleep` durations (10 inside the poll loop, 5 before a retry);
`rename` is recorded only when the rename into the final path succeeds. -/
inductive Event where
  | submit (requestId : Option String)
  | upload (url : String)
  | poll (requestId : String)
  | sleep (units : Nat)
  | download (url : String) (tempPath : String)
  | rename (tempPath : String) (finalPath : String)
deriving DecidableEq

/-- Result of one attempt: skipped, success (carrying the requestId stored
in `result["request_id"]`), or a raised error caught by the retry wrapper
(carrying the message and whatever requestId had been recorded). -/
inductive AttemptResult where
  | skippedA
  | successA (requestId : String)
  | errorA (msg : String) (requestId : Option String)
deriving DecidableEq

/-- The polling loop of `process_single_video` (lines 204-241).  The Python
loop runs `while elapsed < max_wait`, adding `wait_interval` per iteration,
so it performs at most `max_wait / wait_interval = 360` iterations; `fuel`
is the number of iterations remaining and `i` the current poll index.
Each iteration sleeps `wait_interval`, polls, and dispatches on the status:
`complete` requires a non-falsy download url, downloads to
`output/<uuid>.mp4` and renames it to `output/<fname>`; `failed` raises;
every other status (the in-progress list at line 235 and the unrecognized
default at line 238 both only print) continues the loop.  Falling out of
the loop raises the timeout error (line 241). -/
def pollLoop (env : AttemptEnv) (rid : String) (fname : String) :
    Nat → Nat → AttemptResult × List Event
  | _, 0 => (.errorA ("Timeout after " ++ toString max_wait ++ "s") (some rid), [])
  | i, fuel + 1 =>
    let pre : List Event := [.sleep wait_interval, .poll rid]
    match env.polls i with
    | .error m => (.errorA ("Status check failed: " ++ m) (some rid), pre)
    | .ok r =>
      if r.status = "complete" then
        if r.downloadUrl.getD "" = "" then
          (.errorA "No download URL in completed response" (some rid), pre)
        else
          let durl := r.downloadUrl.getD ""
          let temp := OUTPUT_FOLDER ++ "/" ++ env.tempUuid ++ ".mp4"
          let final := OUTPUT_FOLDER ++ "/" ++ fname
          if env.downloadOk then
            if env.renameOk then
              (.successA rid, pre ++ [.download durl temp, .rename temp final])
            else
              (.errorA "rename failed" (some rid), pre ++ [.download durl temp])
          else
            (.errorA "Download failed" (some rid), pre ++ [.download durl temp])
      else if r.status = "failed" then
        (.errorA ("Job failed: " ++ r.errorMsg.getD "Unknown error") (some rid), pre)
      else
        let rest := pollLoop env rid fname (i + 1) fuel
        (rest.1, pre ++ rest.2)

/-- One attempt of `process_single_video` up to the `except` clause
(lines 171-241): skip check, submit, requestId/uploadUrls validation,
upload, then the polling loop. -/
def runAttempt (env : AttemptEnv) (fname : String) : AttemptResult × List Event :=
  if env.outputExists then
    (.skippedA, [])
  else
    match env.submit with
    | .error m => (.errorA ("API error: " ++ m) none, [.submit none])
    | .ok resp =>
      if resp.requestId.getD "" = "" then
        (.errorA "No request ID received from API" resp.requestId,
          [.submit resp.requestId])
      else
        match resp.uploadUrls with
        | [] =>
          (.errorA "No upload URLs received from API" resp.requestId,
            [.submit resp.requestId])
        | u :: _ =>
          let rid := resp.requestId.getD ""
          if env.uploadOk then
            let loop := pollLoop env rid fname 0 (max_wait / wait_interval)
            (loop.1, .submit resp.requestId :: .upload u :: loop.2)
          else
            (.errorA "Video upload failed" resp.requestId,
              [.submit resp.requestId, .upload u])

/-- The terminal result dict of `process_single_video` (lines 162-169
fields, filled in by the returning invocation). -/
structure Outcome where
  filename : String
  status : JobStatus
  requestId : Option String
  error : Option String
  retryCount : Nat
  timestamp : String
deriving DecidableEq

/-- Function `process_single_video(input_file, retry_count)` (lines 161-255).
`fenv k` is the environment seen by the invocation whose `retry_count`
is `k`.  A raised error with `retry_count < RETRY_LIMIT` sleeps 5 and
restarts the whole attempt (line 247-250); otherwise it becomes the
terminal failed outcome (lines 252-255). -/
def process_single_video (fname : String) (fenv : Nat → AttemptEnv)
    (retryCount : Nat) : Outcome × List Event :=
  match runAttempt (fenv retryCount) fname with
  | (.skippedA, evs) =>
    ({ filename := fname, status := .skipped, requestId := none,
       error := some "Already processed", retryCount := retryCount,
       timestamp := (fenv retryCount).now }, evs)
  | (.successA rid, evs) =>
    ({ filename := fname, status := .success, requestId := some rid,
       error := none, retryCount := retryCount,
       timestamp := (fenv retryCount).now }, evs)
  | (.errorA m rid, evs) =>
    if h : retryCount < RETRY_LIMIT then
      let next := process_single_video fname fenv (retryCount + 1)
      (next.1, evs ++ [.sleep 5] ++ next.2)
    else
      ({ filename := fname, status := .failed, requestId := rid,
         error := some m, retryCount := retryCount,
         timestamp := (fenv retryCount).now }, evs)
termination_by RETRY_LIMIT - retryCount
decreasing_by omega

/-- What `asyncio.gather(..., return_exceptions=True)` hands back for one
task (line 285): either the runner's result dict, or the exception that
escaped the runner. -/
inductive RunnerResult where
  | outcome (o : Outcome)
  | defect (msg : String)
deriving DecidableEq

/-- One discovered video file together with its environment.  `defect`
models an unhandled exception escaping the runner itself (the
`isinstance(result, Exception)` branch at line 288): `some msg` means the
task raised `msg` instead of returning an outcome. -/
structure BatchFile where
  name : String
  env : Nat → AttemptEnv
  defect : Option String

/-- The runner result `asyncio.gather` collects for one file. -/
def runnerResult (f : BatchFile) : RunnerResult :=
  match f.defect with
  | some m => .defect m
  | none => .outcome (process_single_video f.name f.env 0).1

/-- An entry of `log_data["results"]`: either a runner's result dict
(all fields of `Outcome`), or the stand-in synthesized at lines 289-294,
which carries only `filename = "unknown"`, `status = "failed"`, the error
text, and a timestamp. -/
inductive LogEntry where
  | ofOutcome (o : Outcome)
  | synthesized (errMsg : String) (timestamp : String)
deriving DecidableEq

/-- The `filename` field of a ledger entry. -/
def LogEntry.filename : LogEntry → String
  | .ofOutcome o => o.filename
  | .synthesized _ _ => "unknown"

/-- The `status` field of a ledger entry (synthesized entries are
`failed`, line 291). -/
def LogEntry.status : LogEntry → JobStatus
  | .ofOutcome o => o.status
  | .synthesized _ _ => .failed

/-- The ledger entry appended for one gathered runner result
(lines 287-297). -/
def resultEntry (gatherTime : String) : RunnerResult → LogEntry
  | .outcome o => .ofOutcome o
  | .defect m => .synthesized m gatherTime

/-- Number of ledger entries with the given terminal status.  Each runner
increments exactly one of `successful`/`failed`/`skipped` when it returns
(lines 175, 224, 254) and the gather loop increments `failed` for each
synthesized entry (line 295), so the final counters equal these counts. -/
def statusCount (s : JobStatus) (es : List LogEntry) : Nat :=
  es.countP (fun e => decide (e.status = s))

/-- Dict `log_data` (lines 28-36): timestamps, counters and the results list. -/
structure LogData where
  start_time : String
  end_time : Option String
  total_videos : Nat
  successful : Nat
  failed : Nat
  skipped : Nat
  results : List LogEntry
deriving DecidableEq

/-- Durable side effects of the batch: `save_log` writing `log_data` to
the log file (lines 304-307). -/
inductive BatchEvent where
  | writeLog (d : LogData)
deriving DecidableEq

/-- Function `process_all_videos` (lines 261-302) over an already-discovered file
list.  `startTime`/`gatherTime`/`endTime` are the wall-clock readings at
lines 29, 293 and 299.  With no video files the function returns early
(lines 267-269): counters stay zero, `end_time` stays unset and `save_log`
is never called.  Otherwise every task's result is appended in task order
(`asyncio.gather` preserves input order), the counters reflect the
increments made by the runners and the gather loop, and the log is written
once at the end. -/
def process_all_videos (files : List BatchFile)
    (startTime gatherTime endTime : String) : LogData × List BatchEvent :=
  let base : LogData :=
    { start_time := startTime, end_time := none,
      total_videos := files.length, successful := 0, failed := 0,
      skipped := 0, results := [] }
  match files with
  | [] => (base, [])
  | _ :: _ =>
    let entries := files.map (fun f => resultEntry gatherTime (runnerResult f))
    let log : LogData :=
      { base with
        end_time := some endTime,
        successful := statusCount .success entries,
        failed := statusCount .failed entries,
        skipped := statusCount .skipped entries,
        results := entries }
    (log, [.writeLog log])

/-- Phase of one per-file task with respect to the admission gate
(`process_video_with_semaphore`, lines 257-259): `waiting` before it
acquires the semaphore, `running` while it holds a slot — which covers
the whole of `process_single_video`, including every polling wait and
every retry — and `done` after it releases the slot. -/
inductive TaskPhase where
  | waiting
  | running
  | done
deriving DecidableEq

/-- Number of tasks currently holding a semaphore slot. -/
def runningCount (ts : List TaskPhase) : Nat :=
  ts.countP (fun t => decide (t = TaskPhase.running))

/-- One scheduler transition: a waiting task may acquire a slot only while
fewer than `MAX_CONCURRENT_TASKS` tasks hold one (`asyncio.Semaphore`
semantics, line 27), and a running task may finish and release its slot.
Tasks suspended in polling waits or retry backoffs stay `running`. -/
inductive SchedStep : List TaskPhase → List TaskPhase → Prop where
  | acquire (ts : List TaskPhase) (i : Nat) (h : i < ts.length)
      (hw : ts.get ⟨i, h⟩ = .waiting)
      (hgate : runningCount ts < MAX_CONCURRENT_TASKS) :
      SchedStep ts (ts.set i .running)
  | release (ts : List TaskPhase) (i : Nat) (h : i < ts.length)
      (hr : ts.get ⟨i, h⟩ = .running) :
      SchedStep ts (ts.set i .done)

/-- States reachable by the scheduler from `n` not-yet-admitted tasks. -/
def SchedReachable (n : Nat) (ts : List TaskPhase) : Prop :=
  Relation.ReflTransGen SchedStep (List.replicate n .waiting) ts

/-- The requestIds returned by the submit calls of an event trace, in
order (one per `submit_video_job` invocation). -/
def submittedIds : List Event → List (Option String)
  | [] => []
  | .submit r :: es => r :: submittedIds es
  | _ :: es => submittedIds es

/-- Number of status polls in a trace. -/
def pollCount (evs : List Event) : Nat :=
  evs.countP (fun e => match e with | .poll _ => true | _ => false)

/-- Number of fixed `wait_interval` sleeps in a trace (the in-loop waits;
retry backoffs sleep 5 and are not counted). -/
def waitCount (evs : List Event) : Nat :=
  evs.countP (fun e => match e with | .sleep u => u == wait_interval | _ => false)

/-- Number of renames into a final output path in a trace. -/
def renameCount (evs : List Event) : Nat :=
  evs.countP (fun e => match e with | .rename _ _ => true | _ => false)

/-- Number of downloads in a trace. -/
def downloadCount (evs : List Event) : Nat :=
  evs.countP (fun e => match e with | .download _ _ => true | _ => false)

/-- A poll response that keeps the loop going: an HTTP-success response
whose status is neither `complete` nor `failed`. -/
def NonTerminal (p : Except String PollResponse) : Prop :=
  ∃ r, p = .ok r ∧ r.status ≠ "complete" ∧ r.status ≠ "failed"

/-- The event trace of `n` polling iterations that all stay in-progress:
each waits `wait_interval` and then polls once. -/
def pollTrace (rid : String) : Nat → List Event
  | 0 => []
  | n + 1 => .sleep wait_interval :: .poll rid :: pollTrace rid n

/-- Pointwise agreement of two poll responses on everything the runner
reads for control flow — status, download url, error message — leaving
the advisory `progress` field unconstrained. -/
def pollAgree : Except String PollResponse → Except String PollResponse → Prop
  | .error m, .error m' => m = m'
  | .ok r, .ok r' =>
    r.status = r'.status ∧ r.downloadUrl = r'.downloadUrl ∧
      r.errorMsg = r'.errorMsg
  | _, _ => False

/-- Two attempt environments that agree everywhere except possibly in the
advisory `progress` values of their poll responses. -/
structure AgreeExceptProgress (e₁ e₂ : AttemptEnv) : Prop where
  outputExists : e₁.outputExists = e₂.outputExists
  submit : e₁.submit = e₂.submit
  uploadOk : e₁.uploadOk = e₂.uploadOk
  downloadOk : e₁.downloadOk = e₂.downloadOk
  renameOk : e₁.renameOk = e₂.renameOk
  tempUuid : e₁.tempUuid = e₂.tempUuid
  now : e₁.now = e₂.now
  polls : ∀ n, pollAgree (e₁.polls n) (e₂.polls n)

/-- Concrete poll response, for test fixtures. -/
def mkPoll (st : String) (p : Nat) (du : Option String) (em : Option String) :
    PollResponse :=
  { status := st, progress := p, downloadUrl := du, errorMsg := em }

/-- Fixture: the output file already exists when the attempt starts. -/
def envAlready : AttemptEnv :=
  { outputExists := true, submit := .ok ⟨some "req-s", ["up-s"]⟩,
    uploadOk := true, polls := fun _ => .ok (mkPoll "processing" 0 none none),
    downloadOk := true, renameOk := true, tempUuid := "uuid-s", now := "t-s" }

/-- Fixture: the remote job completes on the first poll and everything
downstream succeeds. -/
def envComplete (rid uuid : String) : AttemptEnv :=
  { outputExists := false, submit := .ok ⟨some rid, ["up-1"]⟩,
    uploadOk := true,
    polls := fun _ => .ok (mkPoll "complete" 100 (some "dl-1") none),
    downloadOk := true, renameOk := true, tempUuid := uuid, now := "t-c" }

/-- Fixture: the remote job reports `failed` on the first poll. -/
def envRemoteFailed (rid : String) : AttemptEnv :=
  { outputExists := false, submit := .ok ⟨some rid, ["up-0"]⟩,
    uploadOk := true,
    polls := fun _ => .ok (mkPoll "failed" 0 none (some "boom")),
    downloadOk := true, renameOk := true, tempUuid := "uuid-0", now := "t-f" }

/-- Fixture: the remote job stays in-progress forever. -/
def envStuck (rid : String) : AttemptEnv :=
  { outputExists := false, submit := .ok ⟨some rid, ["up-2"]⟩,
    uploadOk := true,
    polls := fun n => .ok (mkPoll "processing" (n % 100) none none),
    downloadOk := true, renameOk := true, tempUuid := "uuid-2", now := "t-p" }

/-- Fixture: like `envStuck` but with different advisory progress values. -/
def envStuckOther (rid : String) : AttemptEnv :=
  { outputExists := false, submit := .ok ⟨some rid, ["up-2"]⟩,
    uploadOk := true,
    polls := fun _ => .ok (mkPoll "processing" 99 none none),
    downloadOk := true, renameOk := true, tempUuid := "uuid-2", now := "t-p" }

/-- Fixture batch: one immediate success, one remote failure (which also
fails on its retry), one already-processed file, and one task whose
runner raises an unhandled defect. -/
def batchA : List BatchFile :=
  [{ name := "a.mp4", env := fun _ => envComplete "rA" "uA", defect := none },
   { name := "b.mp4", env := fun _ => envRemoteFailed "rB", defect := none },
   { name := "c.mp4", env := fun _ => envAlready, defect := none },
   { name := "d.mp4", env := fun _ => envAlready,
     defect := some "task crashed" }]

theorem process_single_video_skip_eq (fname : String) (fenv : Nat → AttemptEnv)
    (rc : Nat) (h : runAttempt (fenv rc) fname = (.skippedA, [])) :
    process_single_video fname fenv rc =
      ({ filename := fname, status := .skipped, requestId := none,
         error := some "Already processed", retryCount := rc,
         timestamp := (fenv rc).now }, []) := by
  unfold process_single_video
  rw [h]

theorem process_single_video_success_eq (fname : String) (fenv : Nat → AttemptEnv)
    (rc : Nat) (rid : String) (evs : List Event)
    (h : runAttempt (fenv rc) fname = (.successA rid, evs)) :
    process_single_video fname fenv rc =
      ({ filename := fname, status := .success, requestId := some rid,
         error := none, retryCount := rc,
         timestamp := (fenv rc).now }, evs) := by
  unfold process_single_video
  rw [h]

theorem process_single_video_retry_eq (fname : String) (fenv : Nat → AttemptEnv)
    (rc : Nat) (m : String) (rid : Option String) (evs : List Event)
    (h : runAttempt (fenv rc) fname = (.errorA m rid, evs))
    (hrc : rc < RETRY_LIMIT) :
    process_single_video fname fenv rc =
      ((process_single_video fname fenv (rc + 1)).1,
        evs ++ [.sleep 5] ++ (process_single_video fname fenv (rc + 1)).2) := by
  conv_lhs => rw [process_single_video]
  rw [h]
  simp [hrc]

theorem process_single_video_exhausted_eq (fname : String) (fenv : Nat → AttemptEnv)
    (rc : Nat) (m : String) (rid : Option String) (evs : List Event)
    (h : runAttempt (fenv rc) fname = (.errorA m rid, evs))
    (hrc : ¬ rc < RETRY_LIMIT) :
    process_single_video fname fenv rc =
      ({ filename := fname, status := .failed, requestId := rid,
         error := some m, retryCount := rc,
         timestamp := (fenv rc).now }, evs) := by
  unfold process_single_video
  rw [h]
  simp [hrc]

theorem runningCount_replicate_waiting (n : Nat) :
    runningCount (List.replicate n .waiting) = 0 := by
  induction n with
  | zero => rfl
  | succ k ih =>
    unfold runningCount at *
    rw [List.replicate_succ, List.countP_cons]
    simp [ih]

theorem sched_step_preserves_bound (a b : List TaskPhase) (hs : SchedStep a b)
    (hle : runningCount a ≤ MAX_CONCURRENT_TASKS) :
    runningCount b ≤ MAX_CONCURRENT_TASKS := by
  cases hs with
  | acquire i h hw hgate =>
    unfold runningCount at *
    rw [List.countP_set _ _ _ _ h]
    have hget : a[i] = TaskPhase.waiting := by
      simpa [List.get_eq_getElem] using hw
    rw [hget]
    simp
    omega
  | release i h hr =>
    unfold runningCount at *
    rw [List.countP_set _ _ _ _ h]
    have hget : a[i] = TaskPhase.running := by
      simpa [List.get_eq_getElem] using hr
    rw [hget]
    simp
    omega

theorem statusCount_partition (es : List LogEntry) :
    statusCount .success es + statusCount .failed es + statusCount .skipped es
      = es.length := by
  induction es with
  | nil => rfl
  | cons e es ih =>
    unfold statusCount at *
    rw [List.countP_cons, List.countP_cons, List.countP_cons, List.length_cons]
    cases h : e.status <;> simp [h] <;> omega

theorem pollTrace_counts (rid : String) (n : Nat) :
    pollCount (pollTrace rid n) = n ∧ waitCount (pollTrace rid n) = n ∧
      renameCount (pollTrace rid n) = 0 ∧ downloadCount (pollTrace rid n) = 0 := by
  induction n with
  | zero => simp [pollTrace, pollCount, waitCount, renameCount, downloadCount]
  | succ k ih =>
    obtain ⟨h1, h2, h3, h4⟩ := ih
    simp [pollTrace, pollCount, waitCount, renameCount, downloadCount,
      List.countP_cons, beq_self_eq_true] at h1 h2 h3 h4 ⊢
    exact ⟨h1, h2, h3, h4⟩

theorem pollLoop_counts (env : AttemptEnv) (rid fname : String) :
    ∀ (fuel i : Nat),
      pollCount (pollLoop env rid fname i fuel).2 ≤ fuel ∧
      waitCount (pollLoop env rid fname i fuel).2 =
        pollCount (pollLoop env rid fname i fuel).2 := by
  intro fuel
  induction fuel with
  | zero =>
    intro i
    simp [pollLoop, pollCount, waitCount]
  | succ n ih =>
    intro i
    rw [pollLoop]
    cases hp : env.polls i with
    | error m => simp [pollCount, waitCount, List.countP_cons]
    | ok resp =>
      by_cases hc : resp.status = "complete"
      · by_cases hd : resp.downloadUrl.getD "" = ""
        · simp [hc, hd, pollCount, waitCount, List.countP_cons]
        · cases hdl : env.downloadOk with
          | false =>
            simp [hc, hd, hdl, pollCount, waitCount, List.countP_cons,
              List.countP_append]
          | true =>
            cases hrn : env.renameOk with
            | false =>
              simp [hc, hd, hdl, hrn, pollCount, waitCount, List.countP_cons,
                List.countP_append]
            | true =>
              simp [hc, hd, hdl, hrn, pollCount, waitCount, List.countP_cons,
                List.countP_append]
      · by_cases hf : resp.status = "failed"
        · simp [hc, hf, pollCount, waitCount, List.countP_cons]
        · obtain ⟨ih1, ih2⟩ := ih (i + 1)
          simp [hc, hf, pollCount, waitCount, List.countP_cons,
            List.countP_append, beq_self_eq_true] at ih1 ih2 ⊢
          omega

theorem pollLoop_nonterminal (env : AttemptEnv) (rid fname : String)
    (hnt : ∀ n, NonTerminal (env.polls n)) :
    ∀ (fuel i : Nat),
      pollLoop env rid fname i fuel =
        (.errorA ("Timeout after " ++ toString max_wait ++ "s") (some rid),
          pollTrace rid fuel) := by
  intro fuel
  induction fuel with
  | zero => intro i; rfl
  | succ n ih =>
    intro i
    obtain ⟨r, hr, hnc, hnf⟩ := hnt i
    rw [pollLoop, hr]
    simp [hnc, hnf, pollTrace, ih (i + 1)]

theorem pollLoop_success_rename (env : AttemptEnv) (rid fname : String) :
    ∀ (fuel i : Nat) (r : String) (evs : List Event),
      pollLoop env rid fname i fuel = (.successA r, evs) →
      env.renameOk = true ∧ renameCount evs = 1 := by
  intro fuel
  induction fuel with
  | zero =>
    intro i r evs h
    simp [pollLoop] at h
  | succ n ih =>
    intro i r evs h
    rw [pollLoop] at h
    cases hp : env.polls i with
    | error m =>
      simp only [hp] at h
      simp at h
    | ok resp =>
      simp only [hp] at h
      by_cases hc : resp.status = "complete"
      · by_cases hd : resp.downloadUrl.getD "" = ""
        · simp [hc, hd] at h
        · cases hdl : env.downloadOk with
          | false => simp [hc, hd, hdl] at h
          | true =>
            cases hrn : env.renameOk with
            | false => simp [hc, hd, hdl, hrn] at h
            | true =>
              simp [hc, hd, hdl, hrn] at h
              refine ⟨rfl, ?_⟩
              rw [← h.2]
              simp [renameCount, List.countP_cons, List.countP_append]
      · by_cases hf : resp.status = "failed"
        · simp [hc, hf] at h
        · simp [hc, hf] at h
          obtain ⟨h1, h2⟩ :=
            ih (i + 1) r (pollLoop env rid fname (i + 1) n).2
              (by rw [← h.1])
          refine ⟨h1, ?_⟩
          rw [← h.2]
          simpa [renameCount, List.countP_cons, List.countP_append] using h2

theorem runAttempt_counts (env : AttemptEnv) (fname : String) :
    pollCount (runAttempt env fname).2 ≤ max_wait / wait_interval ∧
      waitCount (runAttempt env fname).2 = pollCount (runAttempt env fname).2 := by
  unfold runAttempt
  cases ho : env.outputExists with
  | true => simp [pollCount, waitCount]
  | false =>
    cases hs : env.submit with
    | error m => simp [pollCount, waitCount, List.countP_cons]
    | ok resp =>
      by_cases hrid : resp.requestId.getD "" = ""
      · simp [hrid, pollCount, waitCount, List.countP_cons]
      · cases hu : resp.uploadUrls with
        | nil => simp [hrid, hu, pollCount, waitCount, List.countP_cons]
        | cons u us =>
          cases hup : env.uploadOk with
          | false =>
            simp [hrid, hu, pollCount, waitCount, List.countP_cons]
          | true =>
            obtain ⟨hl1, hl2⟩ := pollLoop_counts env (resp.requestId.getD "")
              fname (max_wait / wait_interval) 0
            simp only [hrid, hu, if_neg, if_pos]
            simp [pollCount, waitCount, List.countP_cons] at hl1 hl2 ⊢
            exact ⟨hl1, hl2⟩

theorem runAttempt_timeout (env : AttemptEnv) (fname r u : String)
    (us : List String)
    (ho : env.outputExists = false)
    (hs : env.submit = .ok ⟨some r, u :: us⟩)
    (hr : r ≠ "")
    (hup : env.uploadOk = true)
    (hnt : ∀ n, NonTerminal (env.polls n)) :
    runAttempt env fname =
      (.errorA ("Timeout after " ++ toString max_wait ++ "s") (some r),
        .submit (some r) :: .upload u ::
          pollTrace r (max_wait / wait_interval)) := by
  unfold runAttempt
  simp [ho, hs, hr, hup, pollLoop_nonterminal env r fname hnt]

theorem runAttempt_success_rename (env : AttemptEnv) (fname r : String)
    (evs : List Event) (h : runAttempt env fname = (.successA r, evs)) :
    env.renameOk = true ∧ renameCount evs = 1 := by
  unfold runAttempt at h
  cases ho : env.outputExists with
  | true =>
    rw [ho] at h
    simp at h
  | false =>
    rw [ho] at h
    simp only [Bool.false_eq_true, if_false] at h
    cases hs : env.submit with
    | error m =>
      simp only [hs] at h
      simp at h
    | ok resp =>
      simp only [hs] at h
      by_cases hrid : resp.requestId.getD "" = ""
      · simp [hrid] at h
      · cases hu : resp.uploadUrls with
        | nil =>
          simp [hrid, hu] at h
        | cons u us =>
          cases hup : env.uploadOk with
          | false =>
            simp [hrid, hu, hup] at h
          | true =>
            simp [hrid, hu, hup] at h
            obtain ⟨h1, h2⟩ := h
            have hpair : pollLoop env (resp.requestId.getD "") fname 0
                (max_wait / wait_interval) =
                (.successA r,
                  (pollLoop env (resp.requestId.getD "") fname 0
                    (max_wait / wait_interval)).2) := by
              rw [← h1]
            obtain ⟨hr1, hr2⟩ := pollLoop_success_rename env
              (resp.requestId.getD "") fname (max_wait / wait_interval) 0 r _ hpair
            refine ⟨hr1, ?_⟩
            rw [← h2]
            simpa [renameCount, List.countP_cons] using hr2

theorem pollLoop_congr (e₁ e₂ : AttemptEnv) (hA : AgreeExceptProgress e₁ e₂)
    (rid fname : String) :
    ∀ (fuel i : Nat),
      pollLoop e₁ rid fname i fuel = pollLoop e₂ rid fname i fuel := by
  intro fuel
  induction fuel with
  | zero => intro i; rfl
  | succ n ih =>
    intro i
    have hp := hA.polls i
    rw [pollLoop, pollLoop]
    cases h₁ : e₁.polls i with
    | error m =>
      cases h₂ : e₂.polls i with
      | error m' =>
        rw [h₁, h₂] at hp
        simp only [pollAgree] at hp
        subst hp
        rfl
      | ok r' =>
        rw [h₁, h₂] at hp
        simp [pollAgree] at hp
    | ok r =>
      cases h₂ : e₂.polls i with
      | error m' =>
        rw [h₁, h₂] at hp
        simp [pollAgree] at hp
      | ok r' =>
        rw [h₁, h₂] at hp
        simp only [pollAgree] at hp
        obtain ⟨hst, hdu, hem⟩ := hp
        simp only [hst, hdu, hem, hA.tempUuid, hA.downloadOk, hA.renameOk, ih]

theorem runAttempt_congr (e₁ e₂ : AttemptEnv) (hA : AgreeExceptProgress e₁ e₂)
    (fname : String) : runAttempt e₁ fname = runAttempt e₂ fname := by
  unfold runAttempt
  rw [hA.outputExists, hA.submit, hA.uploadOk]
  simp only [pollLoop_congr e₁ e₂ hA]

theorem process_single_video_congr (fname : String) (f₁ f₂ : Nat → AttemptEnv)
    (hA : ∀ k, AgreeExceptProgress (f₁ k) (f₂ k)) :
    ∀ rc, process_single_video fname f₁ rc = process_single_video fname f₂ rc := by
  have key : ∀ (d rc : Nat), RETRY_LIMIT - rc ≤ d →
      process_single_video fname f₁ rc = process_single_video fname f₂ rc := by
    intro d
    induction d with
    | zero =>
      intro rc hle
      have hrc : ¬ rc < RETRY_LIMIT := by omega
      conv_lhs => rw [process_single_video]
      conv_rhs => rw [process_single_video]
      rw [runAttempt_congr _ _ (hA rc) fname]
      cases h : runAttempt (f₂ rc) fname with
      | mk res evs =>
        cases res <;> simp [hrc, (hA rc).now]
    | succ n ih =>
      intro rc hle
      conv_lhs => rw [process_single_video]
      conv_rhs => rw [process_single_video]
      rw [runAttempt_congr _ _ (hA rc) fname]
      cases h : runAttempt (f₂ rc) fname with
      | mk res evs =>
        cases res with
        | skippedA => simp [(hA rc).now]
        | successA rid => simp [(hA rc).now]
        | errorA m rid =>
          by_cases hrc : rc < RETRY_LIMIT
          · simp [hrc, ih (rc + 1) (by omega), (hA rc).now]
          · simp [hrc, (hA rc).now]
  intro rc
  exact key RETRY_LIMIT rc (by omega)

theorem submittedIds_append (l₁ l₂ : List Event) :
    submittedIds (l₁ ++ l₂) = submittedIds l₁ ++ submittedIds l₂ := by
  induction l₁ with
  | nil => rfl
  | cons x xs ih => cases x <;> simp [submittedIds, ih]

/-- C5: a file whose output path already exists at the start of processing
terminates as a `skipped` outcome with an empty event trace: no submit,
upload, poll or download is performed. -/
theorem already_processed_skips_without_remote_calls (fname : String)
    (fenv : Nat → AttemptEnv) (h : (fenv 0).outputExists = true) :
    process_single_video fname fenv 0 =
      ({ filename := fname, status := .skipped, requestId := none,
         error := some "Already processed", retryCount := 0,
         timestamp := (fenv 0).now }, []) := by
  apply process_single_video_skip_eq
  unfold runAttempt
  rw [h]
  simp

theorem already_processed_skips_without_remote_calls_witness :
    (envAlready.outputExists = true) ∧
    process_single_video "a.mp4" (fun _ => envAlready) 0 =
      ({ filename := "a.mp4", status := .skipped, requestId := none,
         error := some "Already processed", retryCount := 0,
         timestamp := "t-s" }, []) :=
  ⟨rfl, already_processed_skips_without_remote_calls "a.mp4"
    (fun _ => envAlready) rfl⟩

/-- C10: the output-existence check is re-evaluated at the start of every
attempt.  If attempt 0 fails and the output path exists when the retry
attempt starts, the retry yields a `skipped` outcome carrying the retry
count consumed so far (1), and no new submission happens after the
backoff sleep. -/
theorem skip_recheck_on_retry (fname : String) (fenv : Nat → AttemptEnv)
    (m : String) (rid : Option String) (evs₀ : List Event)
    (h0 : runAttempt (fenv 0) fname = (.errorA m rid, evs₀))
    (h1 : (fenv 1).outputExists = true) :
    process_single_video fname fenv 0 =
      ({ filename := fname, status := .skipped, requestId := none,
         error := some "Already processed", retryCount := 1,
         timestamp := (fenv 1).now }, evs₀ ++ [.sleep 5]) ∧
    submittedIds (evs₀ ++ [.sleep 5]) = submittedIds evs₀ := by
  have hskip : runAttempt (fenv 1) fname = (.skippedA, []) := by
    unfold runAttempt
    rw [h1]
    simp
  constructor
  · rw [process_single_video_retry_eq fname fenv 0 m rid evs₀ h0 (by decide)]
    have h01 : (0 : Nat) + 1 = 1 := rfl
    rw [h01, process_single_video_skip_eq fname fenv 1 hskip]
    simp
  · rw [submittedIds_append]
    simp [submittedIds]

theorem skip_recheck_on_retry_witness :
    runAttempt (envRemoteFailed "r0") "a.mp4" =
      (.errorA "Job failed: boom" (some "r0"),
        [.submit (some "r0"), .upload "up-0", .sleep wait_interval,
         .poll "r0"]) ∧
    (envAlready.outputExists = true) ∧
    process_single_video "a.mp4"
      (fun k => if k = 0 then envRemoteFailed "r0" else envAlready) 0 =
      ({ filename := "a.mp4", status := .skipped, requestId := none,
         error := some "Already processed", retryCount := 1,
         timestamp := "t-s" },
        [.submit (some "r0"), .upload "up-0", .sleep wait_interval,
         .poll "r0"] ++ [.sleep 5]) :=
  ⟨rfl, rfl,
    (skip_recheck_on_retry "a.mp4"
      (fun k => if k = 0 then envRemoteFailed "r0" else envAlready)
      "Job failed: boom" (some "r0") _ rfl rfl).1⟩

/-- C2: a failed attempt with retries remaining sleeps a fixed 5 time-units
and restarts the whole per-file sequence, submitting afresh; a run that
fails once and then succeeds terminates as a `success` outcome with retry
count 1 whose trace contains the two attempts' submissions (two distinct
requestIds when the remote service assigns distinct ids per submission);
a run whose attempts all fail terminates as a `failed` outcome with retry
count `RETRY_LIMIT` carrying the last attempt's error. -/
theorem retry_restarts_whole_sequence :
    (∀ (fname : String) (fenv : Nat → AttemptEnv) (m i₀ r₁ : String)
        (rid₀ : Option String) (evs₀ evs₁ : List Event),
      runAttempt (fenv 0) fname = (.errorA m rid₀, evs₀) →
      runAttempt (fenv 1) fname = (.successA r₁, evs₁) →
      submittedIds evs₀ = [some i₀] →
      submittedIds evs₁ = [some r₁] →
      i₀ ≠ r₁ →
      process_single_video fname fenv 0 =
        ({ filename := fname, status := .success, requestId := some r₁,
           error := none, retryCount := 1, timestamp := (fenv 1).now },
          evs₀ ++ [.sleep 5] ++ evs₁) ∧
      submittedIds (process_single_video fname fenv 0).2 =
        [some i₀, some r₁] ∧
      (submittedIds (process_single_video fname fenv 0).2).Nodup) ∧
    (∀ (fname : String) (fenv : Nat → AttemptEnv) (m₀ m₁ : String)
        (rid₀ rid₁ : Option String) (evs₀ evs₁ : List Event),
      runAttempt (fenv 0) fname = (.errorA m₀ rid₀, evs₀) →
      runAttempt (fenv 1) fname = (.errorA m₁ rid₁, evs₁) →
      process_single_video fname fenv 0 =
        ({ filename := fname, status := .failed, requestId := rid₁,
           error := some m₁, retryCount := RETRY_LIMIT,
           timestamp := (fenv 1).now }, evs₀ ++ [.sleep 5] ++ evs₁)) := by
  constructor
  · intro fname fenv m i₀ r₁ rid₀ evs₀ evs₁ h0 h1 hs0 hs1 hne
    have heq : process_single_video fname fenv 0 =
        ({ filename := fname, status := .success, requestId := some r₁,
           error := none, retryCount := 1, timestamp := (fenv 1).now },
          evs₀ ++ [.sleep 5] ++ evs₁) := by
      rw [process_single_video_retry_eq fname fenv 0 m rid₀ evs₀ h0 (by decide)]
      have h01 : (0 : Nat) + 1 = 1 := rfl
      rw [h01, process_single_video_success_eq fname fenv 1 r₁ evs₁ h1]
    refine ⟨heq, ?_, ?_⟩
    · rw [heq]
      simp only [submittedIds_append, hs0, hs1]
      simp [submittedIds]
    · rw [heq]
      simp only [submittedIds_append, hs0, hs1]
      simp [submittedIds, hne]
  · intro fname fenv m₀ m₁ rid₀ rid₁ evs₀ evs₁ h0 h1
    rw [process_single_video_retry_eq fname fenv 0 m₀ rid₀ evs₀ h0 (by decide)]
    have h01 : (0 : Nat) + 1 = 1 := rfl
    rw [h01, process_single_video_exhausted_eq fname fenv 1 m₁ rid₁ evs₁ h1
      (by decide)]
    rfl

theorem retry_restarts_whole_sequence_witness :
    runAttempt (envRemoteFailed "r0") "a.mp4" =
      (.errorA "Job failed: boom" (some "r0"),
        [.submit (some "r0"), .upload "up-0", .sleep wait_interval,
         .poll "r0"]) ∧
    runAttempt (envComplete "r1" "u1") "a.mp4" =
      (.successA "r1",
        [.submit (some "r1"), .upload "up-1", .sleep wait_interval,
         .poll "r1", .download "dl-1" (OUTPUT_FOLDER ++ "/u1.mp4"),
         .rename (OUTPUT_FOLDER ++ "/u1.mp4") (OUTPUT_FOLDER ++ "/a.mp4")]) ∧
    process_single_video "a.mp4"
        (fun k => if k = 0 then envRemoteFailed "r0" else envComplete "r1" "u1")
        0 =
      ({ filename := "a.mp4", status := .success, requestId := some "r1",
         error := none, retryCount := 1, timestamp := "t-c" },
        [.submit (some "r0"), .upload "up-0", .sleep wait_interval,
         .poll "r0"] ++ [.sleep 5] ++
        [.submit (some "r1"), .upload "up-1", .sleep wait_interval,
         .poll "r1", .download "dl-1" (OUTPUT_FOLDER ++ "/u1.mp4"),
         .rename (OUTPUT_FOLDER ++ "/u1.mp4") (OUTPUT_FOLDER ++ "/a.mp4")]) :=
  ⟨rfl, rfl,
    ((retry_restarts_whole_sequence).1 "a.mp4"
      (fun k => if k = 0 then envRemoteFailed "r0" else envComplete "r1" "u1")
      "Job failed: boom" "r0" "r1" (some "r0") _ _ rfl rfl rfl rfl
      (by decide)).1⟩

/-- C8: with the admission gate sized `MAX_CONCURRENT_TASKS`, every state
the scheduler can reach from any number of not-yet-admitted tasks has at
most `MAX_CONCURRENT_TASKS` tasks holding a slot; a task keeps its slot
(stays `running`) for its runner's whole lifetime, so no more than
`MAX_CONCURRENT_TASKS` per-file sequences (and hence remote submissions)
are in flight at once. -/
theorem semaphore_bounds_in_flight (n : Nat) (ts : List TaskPhase)
    (h : SchedReachable n ts) :
    runningCount ts ≤ MAX_CONCURRENT_TASKS := by
  unfold SchedReachable at h
  induction h with
  | refl =>
    rw [runningCount_replicate_waiting]
    exact Nat.zero_le _
  | tail hab hbc ih => exact sched_step_preserves_bound _ _ hbc ih

theorem semaphore_bounds_in_flight_witness :
    SchedReachable 7
      (((List.replicate 7 TaskPhase.waiting).set 0 .running).set 1 .running) ∧
    runningCount
        (((List.replicate 7 TaskPhase.waiting).set 0 .running).set 1 .running)
      ≤ MAX_CONCURRENT_TASKS := by
  have h1 : SchedStep (List.replicate 7 TaskPhase.waiting)
      ((List.replicate 7 TaskPhase.waiting).set 0 .running) :=
    SchedStep.acquire _ 0 (by decide) (by decide) (by decide)
  have h2 : SchedStep ((List.replicate 7 TaskPhase.waiting).set 0 .running)
      (((List.replicate 7 TaskPhase.waiting).set 0 .running).set 1 .running) :=
    SchedStep.acquire _ 1 (by decide) (by decide) (by decide)
  have hreach : SchedReachable 7
      (((List.replicate 7 TaskPhase.waiting).set 0 .running).set 1 .running) :=
    Relation.ReflTransGen.tail (Relation.ReflTransGen.tail
      Relation.ReflTransGen.refl h1) h2
  exact ⟨hreach, semaphore_bounds_in_flight 7 _ hreach⟩

/-- C1: a full batch run appends exactly one ledger entry per discovered
file (a synthesized stand-in for a defecting runner), the ledger's
successful + failed + skipped counters sum to exactly the number of
discovered files, and — the counts being permutation-invariant — this does
not depend on the order in which concurrent runners finish. -/
theorem ledger_one_outcome_per_file (files : List BatchFile) (s g e : String) :
    (process_all_videos files s g e).1.results.length = files.length ∧
    (process_all_videos files s g e).1.successful +
        (process_all_videos files s g e).1.failed +
        (process_all_videos files s g e).1.skipped = files.length ∧
    (∀ es' : List LogEntry,
      (process_all_videos files s g e).1.results.Perm es' →
      statusCount .success es' + statusCount .failed es' +
        statusCount .skipped es' = files.length) := by
  cases files with
  | nil =>
    refine ⟨rfl, rfl, ?_⟩
    intro es' hperm
    have hperm' : ([] : List LogEntry).Perm es' := hperm
    have hnil : es' = [] := List.Perm.eq_nil hperm'.symm
    subst hnil
    rfl
  | cons f fs =>
    have hres : (process_all_videos (f :: fs) s g e).1.results =
        (f :: fs).map (fun x => resultEntry g (runnerResult x)) := rfl
    have hsucc : (process_all_videos (f :: fs) s g e).1.successful =
        statusCount .success
          ((f :: fs).map (fun x => resultEntry g (runnerResult x))) := rfl
    have hfail : (process_all_videos (f :: fs) s g e).1.failed =
        statusCount .failed
          ((f :: fs).map (fun x => resultEntry g (runnerResult x))) := rfl
    have hskip : (process_all_videos (f :: fs) s g e).1.skipped =
        statusCount .skipped
          ((f :: fs).map (fun x => resultEntry g (runnerResult x))) := rfl
    have hpart := statusCount_partition
      ((f :: fs).map (fun x => resultEntry g (runnerResult x)))
    have hlen : ((f :: fs).map (fun x => resultEntry g (runnerResult x))).length
        = (f :: fs).length := List.length_map _ _
    refine ⟨?_, ?_, ?_⟩
    · rw [hres, hlen]
    · rw [hsucc, hfail, hskip, hpart, hlen]
    · intro es' hperm
      rw [hres] at hperm
      unfold statusCount at hpart ⊢
      rw [← hperm.countP_eq, ← hperm.countP_eq, ← hperm.countP_eq, hpart, hlen]

theorem ledger_one_outcome_per_file_witness :
    (process_all_videos batchA "s" "g" "e").1.results.Perm
      (process_all_videos batchA "s" "g" "e").1.results ∧
    statusCount .success (process_all_videos batchA "s" "g" "e").1.results +
      statusCount .failed (process_all_videos batchA "s" "g" "e").1.results +
      statusCount .skipped (process_all_videos batchA "s" "g" "e").1.results =
      batchA.length :=
  ⟨List.Perm.refl _,
    (ledger_one_outcome_per_file batchA "s" "g" "e").2.2 _ (List.Perm.refl _)⟩

/-- C6: a runner whose execution raises an unhandled defect does not crash
the batch: the gather loop synthesizes a `failed` ledger entry with
filename "unknown", the failed counter is positive, the ledger still has
one entry per discovered file, and the batch completes and writes its
log. -/
theorem scheduler_synthesizes_unknown_failed (files : List BatchFile)
    (s g e m : String) (f : BatchFile) (hf : f ∈ files)
    (hd : f.defect = some m) :
    LogEntry.synthesized m g ∈ (process_all_videos files s g e).1.results ∧
    (LogEntry.synthesized m g).filename = "unknown" ∧
    (LogEntry.synthesized m g).status = .failed ∧
    1 ≤ (process_all_videos files s g e).1.failed ∧
    (process_all_videos files s g e).1.results.length = files.length ∧
    (process_all_videos files s g e).2 =
      [.writeLog (process_all_videos files s g e).1] := by
  cases files with
  | nil => cases hf
  | cons f0 fs =>
    have hentry : resultEntry g (runnerResult f) = .synthesized m g := by
      unfold runnerResult
      rw [hd]
      rfl
    have hres : (process_all_videos (f0 :: fs) s g e).1.results =
        (f0 :: fs).map (fun x => resultEntry g (runnerResult x)) := rfl
    have hmem : LogEntry.synthesized m g ∈
        (process_all_videos (f0 :: fs) s g e).1.results := by
      rw [hres, ← hentry]
      exact List.mem_map_of_mem _ hf
    refine ⟨hmem, rfl, rfl, ?_, ?_, rfl⟩
    · have hfail : (process_all_videos (f0 :: fs) s g e).1.failed =
          statusCount .failed
            ((f0 :: fs).map (fun x => resultEntry g (runnerResult x))) := rfl
      rw [hfail]
      unfold statusCount
      have hpos : 0 < ((f0 :: fs).map
          (fun x => resultEntry g (runnerResult x))).countP
            (fun e0 => decide (e0.status = JobStatus.failed)) := by
        rw [List.countP_pos_iff]
        refine ⟨LogEntry.synthesized m g, ?_, ?_⟩
        · rw [← hres]
          exact hmem
        · rfl
      omega
    · rw [hres, List.length_map]

theorem scheduler_synthesizes_unknown_failed_witness :
    ({ name := "d.mp4", env := fun _ => envAlready,
       defect := some "task crashed" } : BatchFile) ∈ batchA ∧
    LogEntry.synthesized "task crashed" "g" ∈
      (process_all_videos batchA "s" "g" "e").1.results ∧
    1 ≤ (process_all_videos batchA "s" "g" "e").1.failed :=
  ⟨by simp [batchA],
    (scheduler_synthesizes_unknown_failed batchA "s" "g" "e" "task crashed"
      { name := "d.mp4", env := fun _ => envAlready,
        defect := some "task crashed" } (by simp [batchA]) rfl).1,
    (scheduler_synthesizes_unknown_failed batchA "s" "g" "e" "task crashed"
      { name := "d.mp4", env := fun _ => envAlready,
        defect := some "task crashed" } (by simp [batchA]) rfl).2.2.2.1⟩

/-- C7 counterexample: a batch run that discovers zero video files returns
early (batch_process.py lines 267-269) before the session is opened, so
`save_log` is never called and no ledger file is written — the ledger is
not written exactly once for every batch run. -/
theorem batch_log_empty_run_not_written :
    ¬ ((process_all_videos [] "s" "g" "e").2.length = 1) := by decide

/-- C7 amended: for every batch run that discovers at least one video
file, the ledger is written to durable storage exactly once, at the end of
the batch, as one structured snapshot containing the start/end timestamps,
the aggregate counts and the full outcome list (one entry per file, each
carrying status/error/retry-count/timestamp); a run that discovers no
files writes nothing. -/
theorem batch_log_written_once_when_nonempty (f : BatchFile)
    (fs : List BatchFile) (s g e : String) :
    (process_all_videos (f :: fs) s g e).2 =
      [.writeLog (process_all_videos (f :: fs) s g e).1] ∧
    (process_all_videos (f :: fs) s g e).1.start_time = s ∧
    (process_all_videos (f :: fs) s g e).1.end_time = some e ∧
    (process_all_videos (f :: fs) s g e).1.total_videos = (f :: fs).length ∧
    (process_all_videos (f :: fs) s g e).1.results =
      (f :: fs).map (fun x => resultEntry g (runnerResult x)) :=
  ⟨rfl, rfl, rfl, rfl, rfl⟩

/-- C3: every attempt performs exactly one status poll per fixed
`wait_interval` sleep and at most `max_wait / wait_interval = 360` polls;
an attempt whose poll responses never reach a terminal status ends with
the timeout error (an ordinary error, fed to the retry policy), having
polled exactly 360 times, downloaded nothing and renamed nothing into the
output directory. -/
theorem polling_bounded_and_times_out :
    (∀ (env : AttemptEnv) (fname : String),
      pollCount (runAttempt env fname).2 ≤ max_wait / wait_interval ∧
      waitCount (runAttempt env fname).2 =
        pollCount (runAttempt env fname).2) ∧
    (∀ (env : AttemptEnv) (fname r u : String) (us : List String),
      env.outputExists = false →
      env.submit = .ok ⟨some r, u :: us⟩ →
      r ≠ "" →
      env.uploadOk = true →
      (∀ n, NonTerminal (env.polls n)) →
      (runAttempt env fname).1 =
        .errorA ("Timeout after " ++ toString max_wait ++ "s") (some r) ∧
      pollCount (runAttempt env fname).2 = max_wait / wait_interval ∧
      renameCount (runAttempt env fname).2 = 0 ∧
      downloadCount (runAttempt env fname).2 = 0) := by
  constructor
  · exact runAttempt_counts
  · intro env fname r u us ho hs hr hup hnt
    rw [runAttempt_timeout env fname r u us ho hs hr hup hnt]
    obtain ⟨hp, hw, hrn, hdl⟩ := pollTrace_counts r (max_wait / wait_interval)
    refine ⟨rfl, ?_, ?_, ?_⟩
    · simp [pollCount, List.countP_cons] at hp ⊢
      exact hp
    · simp [renameCount, List.countP_cons] at hrn ⊢
      exact hrn
    · simp [downloadCount, List.countP_cons] at hdl ⊢
      exact hdl

theorem polling_bounded_and_times_out_witness :
    (∀ n, NonTerminal ((envStuck "r2").polls n)) ∧
    (runAttempt (envStuck "r2") "a.mp4").1 =
      .errorA ("Timeout after " ++ toString max_wait ++ "s") (some "r2") ∧
    pollCount (runAttempt (envStuck "r2") "a.mp4").2 =
      max_wait / wait_interval ∧
    renameCount (runAttempt (envStuck "r2") "a.mp4").2 = 0 :=
  have hc : ("processing" : String) ≠ "complete" := by decide
  have hf : ("processing" : String) ≠ "failed" := by decide
  have hnt : ∀ n, NonTerminal ((envStuck "r2").polls n) := fun n =>
    ⟨mkPoll "processing" (n % 100) none none, rfl, hc, hf⟩
  ⟨hnt,
    ((polling_bounded_and_times_out).2 (envStuck "r2") "a.mp4" "r2" "up-2" []
      rfl rfl (by decide) rfl hnt).1,
    ((polling_bounded_and_times_out).2 (envStuck "r2") "a.mp4" "r2" "up-2" []
      rfl rfl (by decide) rfl hnt).2.1,
    ((polling_bounded_and_times_out).2 (envStuck "r2") "a.mp4" "r2" "up-2" []
      rfl rfl (by decide) rfl hnt).2.2.1⟩

/-- C4: on a `complete` poll the runner requires a non-falsy download url
(failing the attempt otherwise), downloads to a temporary file named by
the attempt's fresh uuid, renames it onto the final output path named
after the source file, and reports success only when the rename succeeded
(on a failed download the attempt raises a retry-eligible error and
nothing is renamed); conversely any successful attempt performed exactly
one successful rename. -/
theorem complete_requires_url_download_rename :
    (∀ (env : AttemptEnv) (fname r u du : String) (us : List String)
        (resp : PollResponse),
      env.outputExists = false →
      env.submit = .ok ⟨some r, u :: us⟩ →
      r ≠ "" →
      env.uploadOk = true →
      env.polls 0 = .ok resp →
      resp.status = "complete" →
      resp.downloadUrl = some du →
      du ≠ "" →
      env.downloadOk = true →
      env.renameOk = true →
      runAttempt env fname =
        (.successA r,
          [.submit (some r), .upload u, .sleep wait_interval, .poll r,
           .download du (OUTPUT_FOLDER ++ "/" ++ env.tempUuid ++ ".mp4"),
           .rename (OUTPUT_FOLDER ++ "/" ++ env.tempUuid ++ ".mp4")
             (OUTPUT_FOLDER ++ "/" ++ fname)])) ∧
    (∀ (env : AttemptEnv) (fname r u : String) (us : List String)
        (resp : PollResponse),
      env.outputExists = false →
      env.submit = .ok ⟨some r, u :: us⟩ →
      r ≠ "" →
      env.uploadOk = true →
      env.polls 0 = .ok resp →
      resp.status = "complete" →
      resp.downloadUrl.getD "" = "" →
      (runAttempt env fname).1 =
        .errorA "No download URL in completed response" (some r)) ∧
    (∀ (env : AttemptEnv) (fname r u du : String) (us : List String)
        (resp : PollResponse),
      env.outputExists = false →
      env.submit = .ok ⟨some r, u :: us⟩ →
      r ≠ "" →
      env.uploadOk = true →
      env.polls 0 = .ok resp →
      resp.status = "complete" →
      resp.downloadUrl = some du →
      du ≠ "" →
      env.downloadOk = false →
      (runAttempt env fname).1 = .errorA "Download failed" (some r) ∧
      renameCount (runAttempt env fname).2 = 0) ∧
    (∀ (env : AttemptEnv) (fname r : String) (evs : List Event),
      runAttempt env fname = (.successA r, evs) →
      env.renameOk = true ∧ renameCount evs = 1) := by
  refine ⟨?_, ?_, ?_, runAttempt_success_rename⟩
  · intro env fname r u du us resp ho hs hr hup hp0 hc hdu hdne hdl hrn
    have hget : resp.downloadUrl.getD "" = du := by
      rw [hdu]
      rfl
    have hone : pollLoop env r fname 0 (max_wait / wait_interval) =
        (.successA r,
          [.sleep wait_interval, .poll r,
           .download du (OUTPUT_FOLDER ++ "/" ++ env.tempUuid ++ ".mp4"),
           .rename (OUTPUT_FOLDER ++ "/" ++ env.tempUuid ++ ".mp4")
             (OUTPUT_FOLDER ++ "/" ++ fname)]) := by
      rw [show max_wait / wait_interval = 359 + 1 from rfl, pollLoop, hp0]
      simp [hc, hget, hdne, hdl, hrn]
    unfold runAttempt
    simp [ho, hs, hr, hup, hone]
  · intro env fname r u us resp ho hs hr hup hp0 hc hd
    have hone : pollLoop env r fname 0 (max_wait / wait_interval) =
        (.errorA "No download URL in completed response" (some r),
          [.sleep wait_interval, .poll r]) := by
      rw [show max_wait / wait_interval = 359 + 1 from rfl, pollLoop, hp0]
      simp [hc, hd]
    unfold runAttempt
    simp [ho, hs, hr, hup, hone]
  · intro env fname r u du us resp ho hs hr hup hp0 hc hdu hdne hdl
    have hget : resp.downloadUrl.getD "" = du := by
      rw [hdu]
      rfl
    have hone : pollLoop env r fname 0 (max_wait / wait_interval) =
        (.errorA "Download failed" (some r),
          [.sleep wait_interval, .poll r,
           .download du (OUTPUT_FOLDER ++ "/" ++ env.tempUuid ++ ".mp4")]) := by
      rw [show max_wait / wait_interval = 359 + 1 from rfl, pollLoop, hp0]
      simp [hc, hget, hdne, hdl]
    unfold runAttempt
    simp [ho, hs, hr, hup, hone, renameCount, List.countP_cons]

theorem complete_requires_url_download_rename_witness :
    ((envComplete "r1" "u1").polls 0 =
      .ok (mkPoll "complete" 100 (some "dl-1") none)) ∧
    runAttempt (envComplete "r1" "u1") "b.mp4" =
      (.successA "r1",
        [.submit (some "r1"), .upload "up-1", .sleep wait_interval,
         .poll "r1", .download "dl-1" (OUTPUT_FOLDER ++ "/" ++ "u1" ++ ".mp4"),
         .rename (OUTPUT_FOLDER ++ "/" ++ "u1" ++ ".mp4")
           (OUTPUT_FOLDER ++ "/" ++ "b.mp4")]) :=
  ⟨rfl,
    (complete_requires_url_download_rename).1 (envComplete "r1" "u1") "b.mp4"
      "r1" "up-1" "dl-1" [] (mkPoll "complete" 100 (some "dl-1") none)
      rfl rfl (by decide) rfl rfl rfl rfl (by decide) rfl rfl⟩

/-- C9: the reported progress percentage is advisory only: if two per-file
runs see poll responses that differ only in their `progress` values (and
are otherwise identical environments), `process_single_video` produces
exactly the same outcome and the same event trace. -/
theorem progress_is_advisory (fname : String) (f₁ f₂ : Nat → AttemptEnv)
    (hA : ∀ k, AgreeExceptProgress (f₁ k) (f₂ k)) :
    process_single_video fname f₁ 0 = process_single_video fname f₂ 0 :=
  process_single_video_congr fname f₁ f₂ hA 0

theorem progress_is_advisory_witness :
    (envStuck "r2").polls 0 ≠ (envStuckOther "r2").polls 0 ∧
    process_single_video "a.mp4" (fun _ => envStuck "r2") 0 =
      process_single_video "a.mp4" (fun _ => envStuckOther "r2") 0 :=
  ⟨by
    intro h
    simp [envStuck, envStuckOther, mkPoll] at h,
    progress_is_advisory "a.mp4" (fun _ => envStuck "r2")
      (fun _ => envStuckOther "r2") (fun _ =>
        { outputExists := rfl, submit := rfl, uploadOk := rfl,
          downloadOk := rfl, renameOk := rfl, tempUuid := rfl, now := rfl,
          polls := fun n => ⟨rfl, rfl, rfl⟩ })⟩
